import Mathlib

/-!
Verification of the persistence-and-research core of the ExoticSalad
(Exotica Hortus 2.0) Streamlit application, `src/streamlit_app.py`.

The embedding models:
  * the Python `json` module, restricted to the value forms the program
    serializes and deserializes (null, booleans, integers, strings, arrays,
    objects; numeric literals are integers, the only numbers the app writes),
    as a character-level printer and recursive-descent parser;
  * the SQLite-backed record store (`init_db`, `save_plant`,
    `get_all_plants`), with the storage engine modelled as a faithful value
    store and a fault input standing for a storage-layer exception raised at
    `execute`/`read_sql_query` time; the model additionally counts connection
    open/close events on each code path to settle resource claims;
  * the research client (`perform_research`), with the secrets store, the
    process environment, and the remote generative-model call supplied as
    explicit inputs, and the emitted `st.warning`/`st.error` notifications and
    the number of remote calls recorded in the result.
-/

namespace ExoticSalad

/-! ## JSON values (model of the Python `json` module's data domain) -/

/-- A JSON value. Numeric literals are integers: the application only ever
serializes integer sequences (`usda_zones`) and string sequences
(`images`, `grounding_sources`), so fractional numbers never arise on the
write side of the round trip. -/
inductive Json where
  | null : Json
  | bool : Bool → Json
  | int : Int → Json
  | str : String → Json
  | arr : List Json → Json
  | obj : List (String × Json) → Json
deriving Repr

mutual

/-- Structural equality test on JSON values. -/
def Json.beq : Json → Json → Bool
  | .null, .null => true
  | .bool a, .bool b => a == b
  | .int a, .int b => a == b
  | .str a, .str b => a == b
  | .arr a, .arr b => Json.beqList a b
  | .obj a, .obj b => Json.beqFields a b
  | _, _ => false

/-- Structural equality on lists of JSON values. -/
def Json.beqList : List Json → List Json → Bool
  | [], [] => true
  | x :: xs, y :: ys => Json.beq x y && Json.beqList xs ys
  | _, _ => false

/-- Structural equality on lists of object members. -/
def Json.beqFields : List (String × Json) → List (String × Json) → Bool
  | [], [] => true
  | (k, v) :: xs, (l, w) :: ys => k == l && Json.beq v w && Json.beqFields xs ys
  | _, _ => false

end

mutual

theorem Json.beq_iff_eq : ∀ a b : Json, Json.beq a b = true ↔ a = b
  | .null, .null => by simp [Json.beq]
  | .bool _, .bool _ => by simp [Json.beq]
  | .int _, .int _ => by simp [Json.beq]
  | .str _, .str _ => by simp [Json.beq]
  | .arr x, .arr y => by simp [Json.beq, Json.beqList_iff_eq x y]
  | .obj x, .obj y => by simp [Json.beq, Json.beqFields_iff_eq x y]
  | .null, .bool _ | .null, .int _ | .null, .str _ | .null, .arr _ | .null, .obj _
  | .bool _, .null | .bool _, .int _ | .bool _, .str _ | .bool _, .arr _ | .bool _, .obj _
  | .int _, .null | .int _, .bool _ | .int _, .str _ | .int _, .arr _ | .int _, .obj _
  | .str _, .null | .str _, .bool _ | .str _, .int _ | .str _, .arr _ | .str _, .obj _
  | .arr _, .null | .arr _, .bool _ | .arr _, .int _ | .arr _, .str _ | .arr _, .obj _
  | .obj _, .null | .obj _, .bool _ | .obj _, .int _ | .obj _, .str _ | .obj _, .arr _ => by
      simp [Json.beq]

theorem Json.beqList_iff_eq : ∀ a b : List Json, Json.beqList a b = true ↔ a = b
  | [], [] => by simp [Json.beqList]
  | x :: xs, y :: ys => by
      simp [Json.beqList, Json.beq_iff_eq x y, Json.beqList_iff_eq xs ys]
  | [], _ :: _ | _ :: _, [] => by simp [Json.beqList]

theorem Json.beqFields_iff_eq :
    ∀ a b : List (String × Json), Json.beqFields a b = true ↔ a = b
  | [], [] => by simp [Json.beqFields]
  | (k, v) :: xs, (l, w) :: ys => by
      simp [Json.beqFields, Json.beq_iff_eq v w, Json.beqFields_iff_eq xs ys, and_assoc]
  | [], _ :: _ | _ :: _, [] => by simp [Json.beqFields]

end

instance : DecidableEq Json := fun a b =>
  decidable_of_iff (Json.beq a b = true) (Json.beq_iff_eq a b)

/-! ## Decimal printing (model of Python `repr` for `int`, as used by
`json.dumps`) -/

/-- The character for one decimal digit. -/
def digitChar (d : Nat) : Char := Char.ofNat (48 + d)

/-- Decimal digits of `n`, most significant first. `fuel` bounds the
recursion depth; `natChars` supplies enough fuel for any `n`. -/
def natCharsGo (fuel n : Nat) : List Char :=
  match fuel with
  | 0 => []
  | fuel + 1 =>
      if n < 10 then [digitChar n]
      else natCharsGo fuel (n / 10) ++ [digitChar (n % 10)]

/-- Decimal representation of a natural number, e.g. `natChars 120 = "120"`. -/
def natChars (n : Nat) : List Char := natCharsGo (n + 1) n

/-- Decimal representation of an integer: a minus sign followed by the digits
when negative. -/
def intChars (i : Int) : List Char :=
  if i < 0 then '-' :: natChars i.natAbs else natChars i.toNat

/-! ## JSON printing (model of `json.dumps` on the shapes the app writes:
a list of integers, and a list of strings). `json.dumps` separates array
elements with a comma and a space. -/

/-- Interleave `", "` between the rendered elements of an array, as
`json.dumps` does with its default separators. -/
def sepElems : List (List Char) → List Char
  | [] => []
  | [x] => x
  | x :: y :: xs => x ++ ',' :: ' ' :: sepElems (y :: xs)

/-- How `json.dumps` escapes one character inside a string literal. -/
def escapeChar (c : Char) : List Char :=
  if c = '"' then ['\\', '"']
  else if c = '\\' then ['\\', '\\']
  else if c = '\n' then ['\\', 'n']
  else if c = '\t' then ['\\', 't']
  else if c = '\r' then ['\\', 'r']
  else [c]

/-- The characters of a JSON string literal for `s`. -/
def strLitChars (s : String) : List Char :=
  '"' :: (s.data.map escapeChar).flatten ++ ['"']

/-- Characters of `json.dumps` applied to a list of integers
(the `usda_zones` column). -/
def dumpZonesChars (l : List Int) : List Char :=
  '[' :: sepElems (l.map intChars) ++ [']']

/-- `json.dumps` applied to a list of integers, e.g.
`dumpZones [9, 10] = "[9, 10]"`. -/
def dumpZones (l : List Int) : String := String.mk (dumpZonesChars l)

/-- `json.dumps` applied to a list of strings (the `images` and
`grounding_sources` columns). -/
def dumpStrList (l : List String) : String :=
  String.mk ('[' :: sepElems (l.map strLitChars) ++ [']'])

/-! ## JSON parsing (model of `json.loads`) -/

/-- The numeric value of a decimal digit character, when it is one. -/
def digit? (c : Char) : Option Nat :=
  if 48 ≤ c.toNat ∧ c.toNat ≤ 57 then some (c.toNat - 48) else none

/-- Consume a maximal run of decimal digits, accumulating their value onto
`acc`. -/
def parseNatAux : List Char → Nat → Nat × List Char
  | [], acc => (acc, [])
  | c :: cs, acc =>
      match digit? c with
      | some d => parseNatAux cs (acc * 10 + d)
      | none => (acc, c :: cs)

/-- Parse a decimal natural number: at least one digit, maximal munch. -/
def parseNat? : List Char → Option (Nat × List Char)
  | [] => none
  | c :: cs =>
      match digit? c with
      | some d => some (parseNatAux cs d)
      | none => none

/-- Parse a decimal integer: an optional minus sign then digits. -/
def parseInt? : List Char → Option (Int × List Char)
  | [] => none
  | c :: cs =>
      if c = '-' then (parseNat? cs).map (fun p => (-(p.1 : Int), p.2))
      else (parseNat? (c :: cs)).map (fun p => ((p.1 : Int), p.2))

/-- Is `c` JSON insignificant whitespace? -/
def isWs (c : Char) : Bool := c = ' ' ∨ c = '\n' ∨ c = '\t' ∨ c = '\r'

/-- Drop leading whitespace. -/
def skipWs : List Char → List Char
  | [] => []
  | c :: cs => if isWs c then skipWs cs else c :: cs

/-- The character denoted by a backslash escape inside a JSON string literal
(`\uXXXX` escapes are not modelled; the app never writes them). -/
def unescape? (c : Char) : Option Char :=
  if c = '"' then some '"'
  else if c = '\\' then some '\\'
  else if c = '/' then some '/'
  else if c = 'n' then some '\n'
  else if c = 't' then some '\t'
  else if c = 'r' then some '\r'
  else if c = 'b' then some (Char.ofNat 8)
  else if c = 'f' then some (Char.ofNat 12)
  else none

/-- Scan the body of a string literal after the opening quote, collecting the
denoted characters in reverse onto `acc`, up to the closing quote. -/
def strBodyGo : List Char → List Char → Option (String × List Char)
  | [], _ => none
  | '"' :: rest, acc => some (String.mk acc.reverse, rest)
  | '\\' :: c :: rest, acc =>
      match unescape? c with
      | some u => strBodyGo rest (u :: acc)
      | none => none
  | ['\\'], _ => none
  | c :: rest, acc => strBodyGo rest (c :: acc)

/-- Parse the remainder of a string literal, the opening quote consumed. -/
def parseStrBody (cs : List Char) : Option (String × List Char) :=
  strBodyGo cs []

/-- What the recursive-descent JSON reader is currently reading: a single
value, the elements of an array after its `[`, or the members of an object
after its opening brace. The accumulators hold what has been read so far. -/
inductive PTask where
  | val : PTask
  | arrTail : List Json → PTask
  | objTail : List (String × Json) → PTask

/-- One recursive-descent JSON reader for all three tasks. `fuel` bounds the
recursion depth; `parseJson` supplies fuel ample for its input. Returns the
value read and the unconsumed remainder. -/
def parseP (fuel : Nat) (t : PTask) (cs : List Char) : Option (Json × List Char) :=
  match fuel with
  | 0 => none
  | fuel + 1 =>
      match t with
      | .val =>
          match skipWs cs with
          | [] => none
          | c :: cs' =>
              if c = 'n' then
                match cs' with
                | 'u' :: 'l' :: 'l' :: rest => some (.null, rest)
                | _ => none
              else if c = 't' then
                match cs' with
                | 'r' :: 'u' :: 'e' :: rest => some (.bool true, rest)
                | _ => none
              else if c = 'f' then
                match cs' with
                | 'a' :: 'l' :: 's' :: 'e' :: rest => some (.bool false, rest)
                | _ => none
              else if c = '"' then
                (parseStrBody cs').map (fun p => (.str p.1, p.2))
              else if c = '[' then
                match skipWs cs' with
                | ']' :: rest => some (.arr [], rest)
                | cs'' => parseP fuel (.arrTail []) cs''
              else if c = '\x7b' then
                match skipWs cs' with
                | '\x7d' :: rest => some (.obj [], rest)
                | cs'' => parseP fuel (.objTail []) cs''
              else
                (parseInt? (c :: cs')).map (fun p => (.int p.1, p.2))
      | .arrTail acc =>
          match parseP fuel .val cs with
          | none => none
          | some (v, rest) =>
              match skipWs rest with
              | ']' :: rest' => some (.arr (acc ++ [v]), rest')
              | ',' :: rest' => parseP fuel (.arrTail (acc ++ [v])) rest'
              | _ => none
      | .objTail acc =>
          match skipWs cs with
          | '"' :: cs' =>
              match parseStrBody cs' with
              | none => none
              | some (k, rest) =>
                  match skipWs rest with
                  | ':' :: rest' =>
                      match parseP fuel .val rest' with
                      | none => none
                      | some (v, rest'') =>
                          match skipWs rest'' with
                          | '\x7d' :: rest₃ => some (.obj (acc ++ [(k, v)]), rest₃)
                          | ',' :: rest₃ => parseP fuel (.objTail (acc ++ [(k, v)])) rest₃
                          | _ => none
                  | _ => none
          | _ => none

/-- `json.loads`: parse a complete JSON document, requiring the whole input
to be consumed up to trailing whitespace; `none` models a raised
`JSONDecodeError`. (Fractional and exponent numeric literals and `\uXXXX`
escapes are outside the model; the store writes neither.) -/
def parseJson (s : String) : Option Json :=
  match parseP (2 * s.length + 2) .val s.data with
  | some (j, rest) => if skipWs rest = [] then some j else none
  | none => none

/-! ## The record store (`init_db`, `save_plant`, `get_all_plants`)

The SQLite engine is modelled as a faithful value store: a table-existence
flag plus the list of stored rows, each row holding exactly the values the
program passed to `execute` (TEXT columns hold the JSON text produced by
`json.dumps`). A `fault : Option String` input stands for a storage-layer
exception raised by `execute`/`commit`/`read_sql_query` (disk error, locked
file); `connect` itself is modelled as succeeding. Each operation's result
records how many connections it opened and how many it closed on the path
taken, to settle resource-release claims. Temperatures are only stored and
echoed back, never computed with, so they are modelled as exact rationals
(their read-back values compare equal in Python, `20 == 20.0`, as does the
stored boolean, `True == 1`). `date_added`, by contrast, is a
`datetime.datetime` object in the record (`datetime.now()` at the call
site); sqlite3's default adapter converts it to ISO text at `execute` time,
and the read returns that text as a Python `str`, which compares unequal to
the original object — so the model keeps the object and the conversion
apart. -/

/-- A Python `datetime.datetime` value, by its components. -/
structure PyDateTime where
  year : Nat
  month : Nat
  day : Nat
  hour : Nat
  minute : Nat
  second : Nat
  microsecond : Nat
deriving DecidableEq, Repr

/-- `n` printed in decimal, left-padded with zeros to width `w`. -/
def padChars (w n : Nat) : List Char :=
  List.replicate (w - (natChars n).length) '0' ++ natChars n

/-- sqlite3's default `datetime.datetime` adapter: `isoformat` with a space
separator — `YYYY-MM-DD HH:MM:SS`, with `.ffffff` appended when the
microsecond field is nonzero. This text is what the TEXT-affinity
`TIMESTAMP` column stores and what the read hands back. -/
def isoText (t : PyDateTime) : String :=
  String.mk (padChars 4 t.year ++ '-' :: padChars 2 t.month ++
    '-' :: padChars 2 t.day ++ ' ' :: padChars 2 t.hour ++
    ':' :: padChars 2 t.minute ++ ':' :: padChars 2 t.second ++
    (if t.microsecond = 0 then [] else '.' :: padChars 6 t.microsecond))

/-- A value the `date_added` cell of a returned DataFrame row can hold: the
ISO text the table stored, or a datetime object (what the record held before
writing). The code always yields the text; Python `==` between the two
constructors is unequal. -/
inductive DateCell where
  | text : String → DateCell
  | dt : PyDateTime → DateCell
deriving DecidableEq, Repr

/-- A fully-populated Plant Specimen Record, as the UI flow builds it before
calling `save_plant`. -/
structure Plant where
  id : String
  common_name : String
  scientific_name : String
  usda_zones : List Int
  min_temp : Rat
  max_temp : Rat
  drought_tolerance : String
  watering_requirements : String
  watering_frequency : String
  sunlight : String
  soil_type : String
  fertilization_schedule : String
  notes : String
  herbal_benefits : String
  herbal_properties : String
  herbal_dosage : String
  herbal_notes : String
  is_wishlist : Bool
  date_added : PyDateTime
  images : List String
  grounding_sources : List String
deriving DecidableEq, Repr

/-- The Python dict `p` handed to `save_plant`: every key may be absent.
`save_plant` accesses most keys with `p[k]` (a `KeyError` when absent) and
`images`/`grounding_sources` with `p.get(k, [])`. -/
structure PlantInput where
  id : Option String
  common_name : Option String
  scientific_name : Option String
  usda_zones : Option (List Int)
  min_temp : Option Rat
  max_temp : Option Rat
  drought_tolerance : Option String
  watering_requirements : Option String
  watering_frequency : Option String
  sunlight : Option String
  soil_type : Option String
  fertilization_schedule : Option String
  notes : Option String
  herbal_benefits : Option String
  herbal_properties : Option String
  herbal_dosage : Option String
  herbal_notes : Option String
  is_wishlist : Option Bool
  date_added : Option PyDateTime
  images : Option (List String)
  grounding_sources : Option (List String)
deriving DecidableEq, Repr

/-- The dict with every key present, as the Research Lab flow produces. -/
def Plant.toInput (r : Plant) : PlantInput where
  id := some r.id
  common_name := some r.common_name
  scientific_name := some r.scientific_name
  usda_zones := some r.usda_zones
  min_temp := some r.min_temp
  max_temp := some r.max_temp
  drought_tolerance := some r.drought_tolerance
  watering_requirements := some r.watering_requirements
  watering_frequency := some r.watering_frequency
  sunlight := some r.sunlight
  soil_type := some r.soil_type
  fertilization_schedule := some r.fertilization_schedule
  notes := some r.notes
  herbal_benefits := some r.herbal_benefits
  herbal_properties := some r.herbal_properties
  herbal_dosage := some r.herbal_dosage
  herbal_notes := some r.herbal_notes
  is_wishlist := some r.is_wishlist
  date_added := some r.date_added
  images := some r.images
  grounding_sources := some r.grounding_sources

/-- One row of the `plants` table: exactly the 21-tuple `save_plant` binds
into `INSERT OR REPLACE`, with the three sequence fields already serialized
to JSON text. -/
structure StoredRow where
  id : String
  common_name : String
  scientific_name : String
  usda_zones : String
  min_temp : Rat
  max_temp : Rat
  drought_tolerance : String
  watering_requirements : String
  watering_frequency : String
  sunlight : String
  soil_type : String
  fertilization_schedule : String
  notes : String
  herbal_benefits : String
  herbal_properties : String
  herbal_dosage : String
  herbal_notes : String
  is_wishlist : Bool
  date_added : String
  images : String
  grounding_sources : String
deriving DecidableEq, Repr

/-- The state of the SQLite database file. -/
structure DB where
  tableExists : Bool
  rows : List StoredRow
deriving DecidableEq, Repr

/-- A freshly created, empty database file with the `plants` table in place. -/
def emptyDB : DB := { tableExists := true, rows := [] }

/-- A `st.warning`/`st.error` notification shown to the user. -/
inductive Signal where
  | warning : String → Signal
  | error : String → Signal
deriving DecidableEq, Repr

/-- Result of a write-side store operation: the database state or the
exception that propagated out, plus connection open/close counts on the
path taken. -/
structure OpResult where
  outcome : Except String DB
  opened : Nat
  closed : Nat
deriving Repr

/-- `init_db`: connect, `CREATE TABLE IF NOT EXISTS plants (…)`, commit,
close. There is no exception handler, so a storage fault raised at
`execute` propagates and `conn.close()` is skipped. -/
def init_db (fault : Option String) (db : DB) : OpResult :=
  match fault with
  | some e => { outcome := .error e, opened := 1, closed := 0 }
  | none => { outcome := .ok { db with tableExists := true }, opened := 1, closed := 1 }

/-- The database-state transition `init_db` performs when nothing faults. -/
def initState (db : DB) : DB := { db with tableExists := true }

/-- `p[k]`: the value when present, a propagating `KeyError` otherwise. -/
def reqField {α : Type} (o : Option α) (k : String) : Except String α :=
  match o with
  | some v => Except.ok v
  | none => Except.error ("KeyError: " ++ k)

/-- Build the 21-tuple bound into `INSERT OR REPLACE`, evaluating the dict
accesses in source order: `p[k]` for the first nineteen fields,
`p.get('images', [])` and `p.get('grounding_sources', [])` for the last two,
with `json.dumps` applied to the three sequence fields. -/
def buildRow (p : PlantInput) : Except String StoredRow := do
  let id ← reqField p.id "id"
  let common_name ← reqField p.common_name "common_name"
  let scientific_name ← reqField p.scientific_name "scientific_name"
  let usda_zones ← reqField p.usda_zones "usda_zones"
  let min_temp ← reqField p.min_temp "min_temp"
  let max_temp ← reqField p.max_temp "max_temp"
  let drought_tolerance ← reqField p.drought_tolerance "drought_tolerance"
  let watering_requirements ← reqField p.watering_requirements "watering_requirements"
  let watering_frequency ← reqField p.watering_frequency "watering_frequency"
  let sunlight ← reqField p.sunlight "sunlight"
  let soil_type ← reqField p.soil_type "soil_type"
  let fertilization_schedule ← reqField p.fertilization_schedule "fertilization_schedule"
  let notes ← reqField p.notes "notes"
  let herbal_benefits ← reqField p.herbal_benefits "herbal_benefits"
  let herbal_properties ← reqField p.herbal_properties "herbal_properties"
  let herbal_dosage ← reqField p.herbal_dosage "herbal_dosage"
  let herbal_notes ← reqField p.herbal_notes "herbal_notes"
  let is_wishlist ← reqField p.is_wishlist "is_wishlist"
  let date_added ← reqField p.date_added "date_added"
  pure
    { id := id
      common_name := common_name
      scientific_name := scientific_name
      usda_zones := dumpZones usda_zones
      min_temp := min_temp
      max_temp := max_temp
      drought_tolerance := drought_tolerance
      watering_requirements := watering_requirements
      watering_frequency := watering_frequency
      sunlight := sunlight
      soil_type := soil_type
      fertilization_schedule := fertilization_schedule
      notes := notes
      herbal_benefits := herbal_benefits
      herbal_properties := herbal_properties
      herbal_dosage := herbal_dosage
      herbal_notes := herbal_notes
      is_wishlist := is_wishlist
      date_added := isoText date_added
      images := dumpStrList (p.images.getD [])
      grounding_sources := dumpStrList (p.grounding_sources.getD []) }

/-- The serialized row `save_plant` writes for a fully-populated record. -/
def toStoredRow (r : Plant) : StoredRow where
  id := r.id
  common_name := r.common_name
  scientific_name := r.scientific_name
  usda_zones := dumpZones r.usda_zones
  min_temp := r.min_temp
  max_temp := r.max_temp
  drought_tolerance := r.drought_tolerance
  watering_requirements := r.watering_requirements
  watering_frequency := r.watering_frequency
  sunlight := r.sunlight
  soil_type := r.soil_type
  fertilization_schedule := r.fertilization_schedule
  notes := r.notes
  herbal_benefits := r.herbal_benefits
  herbal_properties := r.herbal_properties
  herbal_dosage := r.herbal_dosage
  herbal_notes := r.herbal_notes
  is_wishlist := r.is_wishlist
  date_added := isoText r.date_added
  images := dumpStrList r.images
  grounding_sources := dumpStrList r.grounding_sources

/-- `INSERT OR REPLACE` keyed on the primary key `id`: any conflicting row is
deleted and the new row inserted. -/
def upsertRow (r : StoredRow) (rows : List StoredRow) : List StoredRow :=
  rows.filter (fun s => !(s.id == r.id)) ++ [r]

/-- `save_plant`: connect, build the parameter tuple (dict accesses may raise
`KeyError`), `execute` the `INSERT OR REPLACE` (a storage fault or a missing
table raises there), commit, close. There is no exception handler, so on any
of those failures the error propagates and `conn.close()` is skipped. -/
def save_plant (fault : Option String) (p : PlantInput) (db : DB) : OpResult :=
  match buildRow p with
  | .error e => { outcome := .error e, opened := 1, closed := 0 }
  | .ok row =>
      match fault with
      | some e => { outcome := .error e, opened := 1, closed := 0 }
      | none =>
          if db.tableExists then
            { outcome := .ok { db with rows := upsertRow row db.rows }
              opened := 1
              closed := 1 }
          else
            { outcome := .error "no such table: plants", opened := 1, closed := 0 }

/-- One row of the DataFrame `get_all_plants` returns. DataFrame cells are
dynamically typed, so the three columns whose content is JSON-encoded are
given the dynamic value type: after the read-back conversion `usda_zones`
holds the parsed JSON value, while `images` and `grounding_sources` still
hold the stored text (as string values — the code never deserializes them). -/
structure ReadRow where
  id : String
  common_name : String
  scientific_name : String
  usda_zones : Json
  min_temp : Rat
  max_temp : Rat
  drought_tolerance : String
  watering_requirements : String
  watering_frequency : String
  sunlight : String
  soil_type : String
  fertilization_schedule : String
  notes : String
  herbal_benefits : String
  herbal_properties : String
  herbal_dosage : String
  herbal_notes : String
  is_wishlist : Bool
  date_added : DateCell
  images : Json
  grounding_sources : Json
deriving DecidableEq, Repr

/-- One row after `df['usda_zones'].apply(lambda x: json.loads(x) …)` has
replaced the zones cell with the parsed value `j`; every other column is the
stored cell unchanged. -/
def decodeRow (s : StoredRow) (j : Json) : ReadRow where
  id := s.id
  common_name := s.common_name
  scientific_name := s.scientific_name
  usda_zones := j
  min_temp := s.min_temp
  max_temp := s.max_temp
  drought_tolerance := s.drought_tolerance
  watering_requirements := s.watering_requirements
  watering_frequency := s.watering_frequency
  sunlight := s.sunlight
  soil_type := s.soil_type
  fertilization_schedule := s.fertilization_schedule
  notes := s.notes
  herbal_benefits := s.herbal_benefits
  herbal_properties := s.herbal_properties
  herbal_dosage := s.herbal_dosage
  herbal_notes := s.herbal_notes
  is_wishlist := s.is_wishlist
  date_added := .text s.date_added
  images := .str s.images
  grounding_sources := .str s.grounding_sources

/-- The column conversion over all rows: `none` when `json.loads` raises on
any row's `usda_zones` cell. -/
def decodeRows : List StoredRow → Option (List ReadRow)
  | [] => some []
  | s :: ss =>
      match parseJson s.usda_zones with
      | none => none
      | some j => (decodeRows ss).map (fun rs => decodeRow s j :: rs)

/-- Result of `get_all_plants`: the rows of the returned DataFrame, the
notifications emitted, and connection open/close counts on the path taken. -/
structure ReadResult where
  rows : List ReadRow
  signals : List Signal
  opened : Nat
  closed : Nat
deriving Repr

/-- `get_all_plants`: inside `try`, connect, `SELECT * FROM plants`, close,
then convert the `usda_zones` column; `except` catches any exception, shows
`st.error` and returns an empty DataFrame. A fault (or missing table) raised
at `read_sql_query` is caught before `conn.close()` runs; a `json.loads`
failure in the conversion is raised after the close. -/
def get_all_plants (fault : Option String) (db : DB) : ReadResult :=
  match fault with
  | some e =>
      { rows := [], signals := [.error ("Vault Read Error: " ++ e)]
        opened := 1, closed := 0 }
  | none =>
      if db.tableExists then
        match decodeRows db.rows with
        | some rs => { rows := rs, signals := [], opened := 1, closed := 1 }
        | none =>
            { rows := [], signals := [.error "Vault Read Error: JSONDecodeError"]
              opened := 1, closed := 1 }
      else
        { rows := [], signals := [.error "Vault Read Error: no such table: plants"]
          opened := 1, closed := 0 }

/-! ## The research client (`perform_research`) -/

/-- The inputs `perform_research` consults: `st.secrets.get("API_KEY")`,
`os.environ.get("API_KEY")`, and the remote model, a function from the prompt
to either the response text or a raised transport/remote error. -/
structure ResearchEnv where
  secrets_api_key : Option String
  env_api_key : Option String
  remote : String → Except String String

/-- Python `a or b` on two optional strings: the first when it is truthy
(present and non-empty), otherwise the second. -/
def pyOr (a b : Option String) : Option String :=
  match a with
  | some s => if s = "" then b else some s
  | none => b

/-- Python truthiness of an optional string: `None` and `""` are falsy. -/
def pyTruthy : Option String → Bool
  | none => false
  | some s => !(s == "")

/-- The f-string prompt sent to the model. -/
def buildPrompt (common scientific description : String) : String :=
  "\n    Botanical Analysis Protocol for: " ++ common ++ " " ++ scientific ++
  ".\n    Clues: " ++ description ++
  "\n    Return JSON only: common_name, scientific_name, usda_zones (int list), " ++
  "min_temp (F), max_temp (F), \n    drought_tolerance, watering_requirements, " ++
  "watering_frequency, sunlight, soil_type, \n    fertilization_schedule, " ++
  "herbal_benefits, herbal_properties, herbal_dosage, herbal_notes, notes.\n    "

/-- What a call to `perform_research` produced: the returned value (`none`
models Python `None`), how many calls were made to the remote model, and the
notifications emitted. -/
structure ResearchOutcome where
  result : Option Json
  network_calls : Nat
  signals : List Signal
deriving Repr

/-- `perform_research`: resolve the key from secrets then environment; when
it is falsy, warn and return `None` without touching the network; otherwise
call the model once inside `try` and parse the response text as JSON, any
exception being caught, shown via `st.error`, and converted to `None`. -/
def perform_research (env : ResearchEnv) (common scientific description : String) :
    ResearchOutcome :=
  let api_key := pyOr env.secrets_api_key env.env_api_key
  if !(pyTruthy api_key) then
    { result := none
      network_calls := 0
      signals := [.warning
        "API_KEY not found in Secrets or Environment. Research capabilities are offline."] }
  else
    match env.remote (buildPrompt common scientific description) with
    | .error e =>
        { result := none, network_calls := 1
          signals := [.error ("AI Core Failure: " ++ e)] }
    | .ok body =>
        match parseJson body with
        | some j => { result := some j, network_calls := 1, signals := [] }
        | none =>
            { result := none, network_calls := 1
              signals := [.error "AI Core Failure: JSONDecodeError"] }

/-! ## Round-trip: the parser reads back what the printer wrote -/

/-- `[]` or a head that is not a decimal digit: the boundary at which
maximal-munch number parsing stops. -/
def headNotDigit : List Char → Prop
  | [] => True
  | c :: _ => digit? c = none

theorem digit?_digitChar {d : Nat} (h : d < 10) : digit? (digitChar d) = some d :=
  (by decide : ∀ d ∈ List.range 10, digit? (digitChar d) = some d) d
    (List.mem_range.mpr h)

theorem parseNatAux_stop {cs : List Char} (h : headNotDigit cs) (acc : Nat) :
    parseNatAux cs acc = (acc, cs) := by
  cases cs with
  | nil => rfl
  | cons c cs => simp only [headNotDigit] at h; simp [parseNatAux, h]

theorem parseNatAux_natCharsGo :
    ∀ (fuel n : Nat), n < 10 ^ fuel → ∀ (acc : Nat) (rest : List Char),
      parseNatAux (natCharsGo fuel n ++ rest) acc =
        parseNatAux rest (acc * 10 ^ (natCharsGo fuel n).length + n)
  | 0, n, h => by
      interval_cases n
      simp [natCharsGo]
  | fuel + 1, n, h => by
      intro acc rest
      by_cases hn : n < 10
      · simp only [natCharsGo, if_pos hn, List.cons_append, List.nil_append,
          List.length_cons, List.length_nil]
        simp [parseNatAux, digit?_digitChar hn]
      · have hdiv : n / 10 < 10 ^ fuel := by
          have h10 : 0 < 10 := by norm_num
          rw [Nat.div_lt_iff_lt_mul h10]
          calc n < 10 ^ (fuel + 1) := h
            _ = 10 ^ fuel * 10 := by ring
        simp only [natCharsGo, if_neg hn, List.append_assoc, List.cons_append,
          List.nil_append]
        rw [parseNatAux_natCharsGo fuel (n / 10) hdiv]
        have hmod : n % 10 < 10 := Nat.mod_lt _ (by norm_num)
        simp only [parseNatAux, digit?_digitChar hmod]
        congr 1
        calc (acc * 10 ^ (natCharsGo fuel (n / 10)).length + n / 10) * 10 + n % 10
            = acc * 10 ^ ((natCharsGo fuel (n / 10)).length + 1) +
                (10 * (n / 10) + n % 10) := by ring
          _ = acc * 10 ^ ((natCharsGo fuel (n / 10)).length + 1) + n := by
              rw [Nat.div_add_mod]
          _ = acc * 10 ^ (natCharsGo fuel (n / 10) ++ [digitChar (n % 10)]).length + n := by
              simp

theorem natCharsGo_head :
    ∀ (fuel n : Nat), n < 10 ^ fuel → 0 < fuel →
      ∃ d cs, natCharsGo fuel n = digitChar d :: cs ∧ d < 10
  | 0, _, _, hf => absurd hf (by omega)
  | fuel + 1, n, h, _ => by
      by_cases hn : n < 10
      · exact ⟨n, [], by simp [natCharsGo, hn], hn⟩
      · have hdiv : n / 10 < 10 ^ fuel := by
          rw [Nat.div_lt_iff_lt_mul (by norm_num : (0:Nat) < 10)]
          calc n < 10 ^ (fuel + 1) := h
            _ = 10 ^ fuel * 10 := by ring
        have hf : 0 < fuel := by
          rcases Nat.eq_zero_or_pos fuel with h0 | h0
          · subst h0; simp at hdiv; omega
          · exact h0
        obtain ⟨d, cs, heq, hd⟩ := natCharsGo_head fuel (n / 10) hdiv hf
        exact ⟨d, cs ++ [digitChar (n % 10)], by simp [natCharsGo, hn, heq], hd⟩

theorem n_lt_ten_pow (n : Nat) : n < 10 ^ (n + 1) := by
  calc n < 10 ^ n := Nat.lt_pow_self (by norm_num) n
    _ ≤ 10 ^ (n + 1) := Nat.pow_le_pow_right (by norm_num) (by omega)

theorem natChars_head (n : Nat) :
    ∃ d cs, natChars n = digitChar d :: cs ∧ d < 10 :=
  natCharsGo_head (n + 1) n (n_lt_ten_pow n) (by omega)

theorem parseNat?_natChars (n : Nat) {rest : List Char} (h : headNotDigit rest) :
    parseNat? (natChars n ++ rest) = some (n, rest) := by
  obtain ⟨d, cs, heq, hd⟩ := natChars_head n
  have key : parseNatAux (natChars n ++ rest) 0 = (n, rest) := by
    simp only [natChars]
    rw [parseNatAux_natCharsGo (n + 1) n (n_lt_ten_pow n) 0 rest,
      parseNatAux_stop h]
    simp
  rw [heq] at key ⊢
  simp only [List.cons_append, parseNat?, digit?_digitChar hd]
  simp only [List.cons_append, parseNatAux, digit?_digitChar hd,
    Nat.zero_mul, Nat.zero_add] at key
  exact congrArg some key

theorem digitChar_ne_minus {d : Nat} (h : d < 10) : digitChar d ≠ '-' :=
  (by decide : ∀ d ∈ List.range 10, digitChar d ≠ '-') d (List.mem_range.mpr h)

theorem parseInt?_intChars (i : Int) {rest : List Char} (h : headNotDigit rest) :
    parseInt? (intChars i ++ rest) = some (i, rest) := by
  by_cases hi : i < 0
  · simp only [intChars, if_pos hi, List.cons_append, parseInt?, if_pos rfl,
      parseNat?_natChars i.natAbs h]
    have h2 : -(i.natAbs : Int) = i := by omega
    show some (-(i.natAbs : Int), rest) = some (i, rest)
    rw [h2]
  · obtain ⟨d, cs, heq, hd⟩ := natChars_head i.toNat
    simp only [intChars, if_neg hi, heq, List.cons_append, parseInt?,
      if_neg (digitChar_ne_minus hd)]
    rw [← List.cons_append, ← heq, parseNat?_natChars i.toNat h]
    have h2 : (i.toNat : Int) = i := Int.toNat_of_nonneg (by omega)
    simp [h2]

/-- The first character of a printed integer: the minus sign or a digit. -/
theorem intChars_head (i : Int) :
    ∃ c cs, intChars i = c :: cs ∧ (c = '-' ∨ ∃ d, d < 10 ∧ c = digitChar d) := by
  by_cases hi : i < 0
  · exact ⟨'-', natChars i.natAbs, by simp [intChars, hi], Or.inl rfl⟩
  · obtain ⟨d, cs, heq, hd⟩ := natChars_head i.toNat
    exact ⟨digitChar d, cs, by simp [intChars, hi, heq], Or.inr ⟨d, hd, rfl⟩⟩

/-- A printed integer's first character is not whitespace, opens no other
kind of JSON value, and is not a closing bracket or comma. -/
theorem intChars_head_guards {c : Char}
    (h : c = '-' ∨ ∃ d, d < 10 ∧ c = digitChar d) :
    isWs c = false ∧ c ≠ 'n' ∧ c ≠ 't' ∧ c ≠ 'f' ∧ c ≠ '"' ∧ c ≠ '[' ∧
      c ≠ '\x7b' ∧ c ≠ ']' ∧ c ≠ ',' := by
  rcases h with h | ⟨d, hd, h⟩
  · subst h; decide
  · subst h
    exact (by decide : ∀ d ∈ List.range 10,
        isWs (digitChar d) = false ∧ digitChar d ≠ 'n' ∧ digitChar d ≠ 't' ∧
        digitChar d ≠ 'f' ∧ digitChar d ≠ '"' ∧ digitChar d ≠ '[' ∧
        digitChar d ≠ '\x7b' ∧ digitChar d ≠ ']' ∧ digitChar d ≠ ',') d
      (List.mem_range.mpr hd)

theorem skipWs_cons {c : Char} (h : isWs c = false) (cs : List Char) :
    skipWs (c :: cs) = c :: cs := by
  simp [skipWs, h]

theorem skipWs_space (cs : List Char) : skipWs (' ' :: cs) = skipWs cs := by
  simp [skipWs, isWs]

/-- Reading a single value off input that displays a printed integer. -/
theorem parseP_val_int (f : Nat) (i : Int) {rest cs : List Char}
    (h : skipWs cs = intChars i ++ rest) (hrest : headNotDigit rest) :
    parseP (f + 1) .val cs = some (.int i, rest) := by
  obtain ⟨c, cs₁, heq, hg⟩ := intChars_head i
  obtain ⟨-, hn, ht, hf, hq, hb, ho, -, -⟩ := intChars_head_guards hg
  rw [heq] at h
  simp only [parseP, h, List.cons_append, if_neg hn, if_neg ht, if_neg hf,
    if_neg hq, if_neg hb, if_neg ho]
  rw [← List.cons_append, ← heq, parseInt?_intChars i hrest]
  rfl

/-- The first character of a printed nonempty element list: the first
character of its first printed integer. -/
theorem sepElems_head (y : Int) (ys : List Int) :
    ∃ c cs', sepElems ((y :: ys).map intChars) = c :: cs' ∧
      (c = '-' ∨ ∃ d, d < 10 ∧ c = digitChar d) := by
  obtain ⟨c, cs₁, heq, hg⟩ := intChars_head y
  cases ys with
  | nil => exact ⟨c, cs₁, by simp [sepElems, heq], hg⟩
  | cons y' ys' =>
      exact ⟨c, cs₁ ++ ',' :: ' ' :: sepElems ((y' :: ys').map intChars),
        by simp [sepElems, heq], hg⟩

/-- One unfolding of the element loop: parse a value, then a closing bracket
ends the array and a comma continues it. -/
theorem parseP_arrTail_step (f : Nat) (acc : List Json) (cs : List Char) :
    parseP (f + 1) (.arrTail acc) cs =
      match parseP f .val cs with
      | none => none
      | some (v, rest) =>
          match skipWs rest with
          | ']' :: rest' => some (.arr (acc ++ [v]), rest')
          | ',' :: rest' => parseP f (.arrTail (acc ++ [v])) rest'
          | _ => none := rfl

/-- Reading the elements of a nonempty integer array after the opening
bracket: each printed element is read back, and the closing bracket ends the
array. -/
theorem parseP_arrTail :
    ∀ (z : Int) (zs : List Int) (acc : List Json) (rest : List Char) (f : Nat)
      (cs : List Char), 2 * zs.length ≤ f →
      skipWs cs = sepElems ((z :: zs).map intChars) ++ ']' :: rest →
      parseP (f + 2) (.arrTail acc) cs =
        some (.arr (acc ++ (z :: zs).map .int), rest)
  | z, [], acc, rest, f, cs, _, h => by
      simp only [List.map_cons, List.map_nil, sepElems] at h
      have hval : parseP (f + 1) .val cs = some (.int z, ']' :: rest) :=
        parseP_val_int f z h (by simp [headNotDigit]; decide)
      show parseP (f + 1 + 1) (.arrTail acc) cs = _
      rw [parseP_arrTail_step, hval]
      have hsk : skipWs (']' :: rest) = ']' :: rest :=
        skipWs_cons (by decide) rest
      simp [hsk]
  | z, y :: l, acc, rest, f, cs, hfuel, h => by
      simp only [List.length_cons] at hfuel
      obtain ⟨f', rfl⟩ : ∃ f', f = f' + 2 := ⟨f - 2, by omega⟩
      simp only [List.map_cons, sepElems] at h
      rw [List.append_assoc, List.cons_append, List.cons_append] at h
      have hval : parseP (f' + 3) .val cs =
          some (.int z, ',' :: ' ' ::
            (sepElems (intChars y :: l.map intChars) ++ ']' :: rest)) :=
        parseP_val_int (f' + 2) z (by simpa using h)
          (by simp [headNotDigit]; decide)
      show parseP (f' + 3 + 1) (.arrTail acc) cs = _
      rw [parseP_arrTail_step, hval]
      have hcomma : skipWs (',' :: ' ' ::
          (sepElems (intChars y :: l.map intChars) ++ ']' :: rest)) =
          ',' :: ' ' :: (sepElems (intChars y :: l.map intChars) ++ ']' :: rest) :=
        skipWs_cons (by decide) _
      obtain ⟨c₀, cs₀, heq₀, hg₀⟩ := sepElems_head y l
      simp only [List.map_cons] at heq₀
      have hskip : skipWs (' ' :: (sepElems (intChars y :: l.map intChars) ++
          ']' :: rest)) = sepElems (intChars y :: l.map intChars) ++ ']' :: rest := by
        rw [skipWs_space, heq₀, List.cons_append,
          skipWs_cons (intChars_head_guards hg₀).1]
      have hrec := parseP_arrTail y l (acc ++ [.int z]) rest (f' + 1)
        (' ' :: (sepElems (intChars y :: l.map intChars) ++ ']' :: rest))
        (by omega) (by simpa using hskip)
      simp only [hcomma]
      show parseP (f' + 1 + 2) (.arrTail (acc ++ [.int z]))
          (' ' :: (sepElems (intChars y :: l.map intChars) ++ ']' :: rest)) = _
      rw [hrec]
      simp

/-- Every printed element list is at least as long as the element count. -/
theorem sepElems_length :
    ∀ l : List Int, l.length ≤ (sepElems (l.map intChars)).length
  | [] => by simp [sepElems]
  | [x] => by
      obtain ⟨c, cs₁, heq, -⟩ := intChars_head x
      simp [sepElems, heq]
  | x :: y :: l => by
      obtain ⟨c, cs₁, heq, -⟩ := intChars_head x
      have ih := sepElems_length (y :: l)
      simp [sepElems, heq] at ih ⊢
      omega

/-- One unfolding of value reading at an opening bracket: an immediate
closing bracket gives the empty array, anything else starts the element
loop. -/
theorem parseP_val_openArr (f : Nat) {cs X : List Char}
    (h : skipWs cs = '[' :: X) :
    parseP (f + 1) .val cs =
      match skipWs X with
      | ']' :: rest => some (.arr [], rest)
      | cs'' => parseP f (.arrTail []) cs'' := by
  conv_lhs => rw [parseP]
  rw [h]
  simp

/-- Round trip for the `usda_zones` column: `json.loads` applied to
`json.dumps` of an integer list yields exactly that list, as a JSON array of
integers. -/
theorem parseJson_dumpZones (l : List Int) :
    parseJson (dumpZones l) = some (.arr (l.map .int)) := by
  cases l with
  | nil => decide
  | cons z zs =>
      have hdata : (dumpZones (z :: zs)).data = dumpZonesChars (z :: zs) := rfl
      have hlen : (dumpZones (z :: zs)).length = (dumpZonesChars (z :: zs)).length := rfl
      obtain ⟨c₀, cs₀, heq₀, hg₀⟩ := sepElems_head z zs
      obtain ⟨-, -, -, -, -, -, -, hc₀, -⟩ := intChars_head_guards hg₀
      have hfle : 2 * zs.length ≤ 2 * (dumpZonesChars (z :: zs)).length - 1 := by
        have h1 := sepElems_length (z :: zs)
        simp only [dumpZonesChars, List.length_cons, List.length_append] at *
        omega
      obtain ⟨g, hg⟩ : ∃ g, 2 * (dumpZonesChars (z :: zs)).length + 1 = g + 2 :=
        ⟨2 * (dumpZonesChars (z :: zs)).length - 1, by
          simp [dumpZonesChars]; omega⟩
      have harr : parseP (2 * (dumpZonesChars (z :: zs)).length + 1) (.arrTail [])
          (sepElems ((z :: zs).map intChars) ++ [']']) =
          some (.arr ((z :: zs).map .int), []) := by
        rw [hg]
        have := parseP_arrTail z zs [] [] g
          (sepElems ((z :: zs).map intChars) ++ [']'])
          (by omega)
          (by rw [heq₀, List.cons_append, skipWs_cons (intChars_head_guards hg₀).1])
        simpa using this
      have hmain : parseP (2 * (dumpZonesChars (z :: zs)).length + 2) .val
          (dumpZonesChars (z :: zs)) = some (.arr ((z :: zs).map .int), []) := by
        have hopen : skipWs (dumpZonesChars (z :: zs)) =
            '[' :: (sepElems ((z :: zs).map intChars) ++ [']']) := by
          simp only [dumpZonesChars]
          exact skipWs_cons (by decide) _
        rw [show 2 * (dumpZonesChars (z :: zs)).length + 2 =
          (2 * (dumpZonesChars (z :: zs)).length + 1) + 1 from rfl]
        rw [parseP_val_openArr _ hopen]
        rw [heq₀, List.cons_append, skipWs_cons (intChars_head_guards hg₀).1]
        split
        · rename_i rest heq
          simp only [List.cons.injEq] at heq
          exact absurd heq.1 hc₀
        · rw [← List.cons_append, ← heq₀]
          exact harr
      simp only [parseJson, hdata, hlen, hmain]
      rfl

/-! ## Store lemmas -/

/-- A fully-populated dict always builds its serialized row: every `p[k]`
access finds its key. -/
theorem buildRow_toInput (r : Plant) : buildRow r.toInput = Except.ok (toStoredRow r) := rfl

/-- On a healthy store with the table present, `save_plant` of a
fully-populated record succeeds and performs the single-row upsert. -/
theorem save_plant_ok (r : Plant) (db : DB) (hdb : db.tableExists = true) :
    save_plant none r.toInput db =
      { outcome := Except.ok { db with rows := upsertRow (toStoredRow r) db.rows }
        opened := 1, closed := 1 } := by
  simp [save_plant, buildRow_toInput, hdb]

/-- After an upsert, the rows carrying the upserted id are exactly the new
row: `INSERT OR REPLACE` leaves no duplicate and no stale row. -/
theorem filter_upsertRow (t : StoredRow) (rows : List StoredRow) :
    (upsertRow t rows).filter (fun s => s.id == t.id) = [t] := by
  simp only [upsertRow, List.filter_append]
  rw [List.filter_filter]
  have h1 : ∀ s : StoredRow, ((s.id == t.id) && !(s.id == t.id)) = false := by
    intro s
    cases h : s.id == t.id <;> simp [h]
  simp [h1]

theorem decodeRows_isSome :
    ∀ (xs : List StoredRow), (∀ s ∈ xs, (parseJson s.usda_zones).isSome) →
      ∃ rs, decodeRows xs = some rs
  | [], _ => ⟨[], rfl⟩
  | t :: ts, h => by
      obtain ⟨j, hj⟩ := Option.isSome_iff_exists.mp (h t (by simp))
      obtain ⟨rs, hrs⟩ := decodeRows_isSome ts (fun s hs => h s (by simp [hs]))
      exact ⟨decodeRow t j :: rs, by simp [decodeRows, hj, hrs]⟩

theorem decodeRows_append_single :
    ∀ (xs : List StoredRow) {rs : List ReadRow}, decodeRows xs = some rs →
      ∀ {s : StoredRow} {j : Json}, parseJson s.usda_zones = some j →
      decodeRows (xs ++ [s]) = some (rs ++ [decodeRow s j])
  | [], rs, hx, s, j, hs => by
      simp only [decodeRows] at hx
      cases hx
      simp [decodeRows, hs]
  | t :: ts, rs, hx, s, j, hs => by
      simp only [decodeRows] at hx
      cases ht : parseJson t.usda_zones with
      | none => rw [ht] at hx; cases hx
      | some jt =>
          rw [ht] at hx
          cases hts : decodeRows ts with
          | none => rw [hts] at hx; cases hx
          | some rs' =>
              rw [hts] at hx
              simp only [Option.map] at hx
              cases hx
              have := decodeRows_append_single ts hts hs
              simp [decodeRows, ht, this]

theorem decodeRows_none :
    ∀ (xs : List StoredRow), (∃ s ∈ xs, parseJson s.usda_zones = none) →
      decodeRows xs = none
  | [], h => by simp at h
  | t :: ts, h => by
      obtain ⟨s, hmem, hs⟩ := h
      simp only [List.mem_cons] at hmem
      rcases hmem with rfl | hmem
      · simp [decodeRows, hs]
      · simp only [decodeRows]
        cases ht : parseJson t.usda_zones with
        | none => rfl
        | some jt => rw [decodeRows_none ts ⟨s, hmem, hs⟩]; rfl

theorem decodeRows_mem :
    ∀ (xs : List StoredRow) {rs : List ReadRow}, decodeRows xs = some rs →
      ∀ row ∈ rs, ∃ s, s ∈ xs ∧ ∃ j, parseJson s.usda_zones = some j ∧
        row = decodeRow s j
  | [], rs, h => by
      simp only [decodeRows] at h
      cases h
      simp
  | t :: ts, rs, h => by
      simp only [decodeRows] at h
      cases ht : parseJson t.usda_zones with
      | none => rw [ht] at h; cases h
      | some jt =>
          rw [ht] at h
          cases hts : decodeRows ts with
          | none => rw [hts] at h; cases h
          | some rs' =>
              rw [hts] at h
              simp only [Option.map] at h
              cases h
              intro row hrow
              rcases List.mem_cons.mp hrow with rfl | hr
              · exact ⟨t, by simp, jt, ht, rfl⟩
              · obtain ⟨s, hmem, j, hj, heq⟩ := decodeRows_mem ts hts row hr
                exact ⟨s, by simp [hmem], j, hj, heq⟩

/-- Decoded rows coming from stored rows that all miss a given id also miss
that id. -/
theorem filter_decoded_ne {xs : List StoredRow} {rs : List ReadRow}
    (hd : decodeRows xs = some rs) (rid : String)
    (hne : ∀ s ∈ xs, (s.id == rid) = false) :
    rs.filter (fun row => row.id == rid) = [] := by
  rw [List.filter_eq_nil_iff]
  intro row hrow
  obtain ⟨s, hmem, j, _, heq⟩ := decodeRows_mem xs hd row hrow
  have : (decodeRow s j).id = s.id := rfl
  simp [heq, this, hne s hmem]

/-! ## The claims -/

/-- The read-back record C1's words describe (stated from the claim, as the
refinement target): equal to `r` field-for-field, with `usda_zones` equal to
`r`'s as an ordered integer sequence — so each sequence-valued field comes
back as a sequence. -/
def specReadRow (r : Plant) : ReadRow where
  id := r.id
  common_name := r.common_name
  scientific_name := r.scientific_name
  usda_zones := .arr (r.usda_zones.map .int)
  min_temp := r.min_temp
  max_temp := r.max_temp
  drought_tolerance := r.drought_tolerance
  watering_requirements := r.watering_requirements
  watering_frequency := r.watering_frequency
  sunlight := r.sunlight
  soil_type := r.soil_type
  fertilization_schedule := r.fertilization_schedule
  notes := r.notes
  herbal_benefits := r.herbal_benefits
  herbal_properties := r.herbal_properties
  herbal_dosage := r.herbal_dosage
  herbal_notes := r.herbal_notes
  is_wishlist := r.is_wishlist
  date_added := .dt r.date_added
  images := .arr (r.images.map .str)
  grounding_sources := .arr (r.grounding_sources.map .str)

/-- The row `get_all_plants` actually returns for a freshly upserted `r`:
`usda_zones` decoded back to the integer sequence, `images` and
`grounding_sources` still the stored JSON text, `date_added` the ISO text
the adapter stored rather than the recorded datetime object. -/
def codeReadRow (r : Plant) : ReadRow :=
  decodeRow (toStoredRow r) (.arr (r.usda_zones.map .int))

/-- A concrete creation timestamp, as `datetime.now()` produces. -/
def sampleDate : PyDateTime :=
  { year := 2026, month := 10, day := 12, hour := 9, minute := 30, second := 5
    microsecond := 0 }

/-- A concrete fully-populated record, the explicit input of counterexamples
and witnesses. -/
def samplePlant : Plant where
  id := "1700000000.0"
  common_name := "Aloe"
  scientific_name := "Aloe vera"
  usda_zones := [9, 10, 11]
  min_temp := 20
  max_temp := 110
  drought_tolerance := "high"
  watering_requirements := "low"
  watering_frequency := "biweekly"
  sunlight := "full sun"
  soil_type := "sandy"
  fertilization_schedule := "spring"
  notes := "hardy"
  herbal_benefits := "soothing"
  herbal_properties := "gel"
  herbal_dosage := "topical"
  herbal_notes := "leaf gel"
  is_wishlist := false
  date_added := sampleDate
  images := ["leaf.png"]
  grounding_sources := ["https://example.org/aloe"]

/-- The store after upserting `samplePlant` into a fresh database. -/
def dbSample : DB := { tableExists := true, rows := [toStoredRow samplePlant] }

/-- A second record with the same id as `samplePlant` but different data. -/
def samplePlant2 : Plant :=
  { samplePlant with common_name := "Aloe II", usda_zones := [5], min_temp := 0 }

/-- C1 (amended — counterexample `c1_counterexample`): after `save_plant r`
on a store whose table exists and whose rows all carry parseable
`usda_zones` text, `get_all_plants` yields exactly one record with `r`'s id;
it equals `r` on the id and every scalar field except `date_added`, its
`usda_zones` equals `r`'s as an ordered integer sequence (serialization
round-trips exactly through deserialization), but `images` and
`grounding_sources` come back as the JSON text of `r`'s sequences, not as
sequences, and `date_added` comes back as the ISO text sqlite3's adapter
stored, not equal as a value to the recorded datetime object. -/
theorem c1_read_after_upsert_roundtrip (r : Plant) (db : DB)
    (hdb : db.tableExists = true)
    (hrows : ∀ s ∈ db.rows, (parseJson s.usda_zones).isSome) :
    ∃ db', (save_plant none r.toInput db).outcome = Except.ok db' ∧
      (get_all_plants none db').rows.filter (fun row => row.id == r.id) =
        [codeReadRow r] := by
  refine ⟨{ db with rows := upsertRow (toStoredRow r) db.rows }, ?_, ?_⟩
  · rw [save_plant_ok r db hdb]
  · have hparse : parseJson (toStoredRow r).usda_zones =
        some (.arr (r.usda_zones.map .int)) := parseJson_dumpZones r.usda_zones
    have hfil : ∀ s ∈ db.rows.filter (fun s => !(s.id == (toStoredRow r).id)),
        (parseJson s.usda_zones).isSome := fun s hs =>
      hrows s (List.mem_of_mem_filter hs)
    obtain ⟨rs, hrs⟩ := decodeRows_isSome _ hfil
    have hdec := decodeRows_append_single _ hrs hparse
    have hne : ∀ s ∈ db.rows.filter (fun s => !(s.id == (toStoredRow r).id)),
        (s.id == r.id) = false := by
      intro s hs
      have := List.of_mem_filter hs
      simpa using this
    have hnil := filter_decoded_ne hrs r.id hne
    simp only [get_all_plants, hdb, if_true]
    rw [show upsertRow (toStoredRow r) db.rows =
      db.rows.filter (fun s => !(s.id == (toStoredRow r).id)) ++ [toStoredRow r]
      from rfl]
    rw [hdec]
    simp only [List.filter_append, hnil, List.nil_append]
    have hid : ((decodeRow (toStoredRow r) (.arr (r.usda_zones.map .int))).id == r.id) =
        true := by
      simp [decodeRow, toStoredRow]
    simp [hid, codeReadRow]

/-- C1 counterexample: with the concrete record `samplePlant`, the single
record read back after the upsert is not equal to it field-for-field — the
`images` and `grounding_sources` fields come back as JSON text strings
(`Json.str`), not as the recorded sequences, and the `date_added` field
comes back as the adapter's ISO text, not as the recorded datetime object. -/
theorem c1_counterexample :
    (save_plant none samplePlant.toInput emptyDB).outcome = Except.ok dbSample ∧
    (get_all_plants none dbSample).rows = [codeReadRow samplePlant] ∧
    (codeReadRow samplePlant).images ≠ (specReadRow samplePlant).images ∧
    (codeReadRow samplePlant).date_added ≠ (specReadRow samplePlant).date_added ∧
    codeReadRow samplePlant ≠ specReadRow samplePlant := by
  refine ⟨rfl, by decide, by decide, by decide, by decide⟩

/-- C1 witness: the amended claim at the concrete record `samplePlant` on
the fresh store. -/
theorem c1_witness :
    emptyDB.tableExists = true ∧
    (∃ db', (save_plant none samplePlant.toInput emptyDB).outcome = Except.ok db' ∧
      (get_all_plants none db').rows.filter (fun row => row.id == samplePlant.id) =
        [codeReadRow samplePlant]) :=
  ⟨rfl, c1_read_after_upsert_roundtrip samplePlant emptyDB rfl (by simp [emptyDB])⟩

/-- C2: upserting `r` then `r'` with the same id leaves exactly one stored
row with that id — the full serialized row of `r'`, with no duplicate and no
partial update. -/
theorem c2_upsert_overwrite (r r' : Plant) (db : DB) (_hid : r'.id = r.id)
    (hdb : db.tableExists = true) :
    ∃ db' db'', (save_plant none r.toInput db).outcome = Except.ok db' ∧
      (save_plant none r'.toInput db').outcome = Except.ok db'' ∧
      db''.rows.filter (fun s => s.id == r'.id) = [toStoredRow r'] ∧
      db''.rows.countP (fun s => s.id == r'.id) = 1 := by
  refine ⟨{ db with rows := upsertRow (toStoredRow r) db.rows },
    { db with rows :=
        upsertRow (toStoredRow r') (upsertRow (toStoredRow r) db.rows) },
    ?_, ?_, ?_, ?_⟩
  · rw [save_plant_ok r db hdb]
  · rw [save_plant_ok r' { db with rows := upsertRow (toStoredRow r) db.rows } hdb]
  · have h := filter_upsertRow (toStoredRow r') (upsertRow (toStoredRow r) db.rows)
    rw [show (fun s : StoredRow => s.id == r'.id) =
      (fun s : StoredRow => s.id == (toStoredRow r').id) from rfl]
    exact h
  · rw [List.countP_eq_length_filter]
    have h := filter_upsertRow (toStoredRow r') (upsertRow (toStoredRow r) db.rows)
    rw [show (fun s : StoredRow => s.id == r'.id) =
      (fun s : StoredRow => s.id == (toStoredRow r').id) from rfl, h]
    rfl

/-- C2 witness: the overwrite at the concrete pair `samplePlant`,
`samplePlant2` (same id) on the fresh store. -/
theorem c2_witness :
    samplePlant2.id = samplePlant.id ∧ emptyDB.tableExists = true ∧
    (∃ db' db'', (save_plant none samplePlant.toInput emptyDB).outcome = Except.ok db' ∧
      (save_plant none samplePlant2.toInput db').outcome = Except.ok db'' ∧
      db''.rows.filter (fun s => s.id == samplePlant2.id) = [toStoredRow samplePlant2] ∧
      db''.rows.countP (fun s => s.id == samplePlant2.id) = 1) :=
  ⟨rfl, rfl, c2_upsert_overwrite samplePlant samplePlant2 emptyDB rfl rfl⟩

/-- C3 counterexample: a storage-layer failure during `save_plant` is not
caught and converted to a notification — the raised error is exactly what
comes out of the operation, uncaught by any handler in it. -/
theorem c3_counterexample :
    (save_plant (some "disk I/O error") samplePlant.toInput emptyDB).outcome =
      Except.error "disk I/O error" ∧
    ((save_plant (some "disk I/O error") samplePlant.toInput emptyDB).outcome.isOk =
      false) :=
  ⟨rfl, rfl⟩

/-- C3 (amended — counterexample `c3_counterexample`): `save_plant` has no
exception handler, so a storage-layer failure during the upsert propagates
to the caller as the raised exception, converted to no notification; only
`get_all_plants` catches storage failures, degrading to an empty result with
a user-visible error message. -/
theorem c3_save_fault_propagates (e : String) (r : Plant) (db : DB) :
    (save_plant (some e) r.toInput db).outcome = Except.error e ∧
    (get_all_plants (some e) db).rows = [] ∧
    (get_all_plants (some e) db).signals = [.error ("Vault Read Error: " ++ e)] :=
  ⟨rfl, rfl, rfl⟩

/-- The dict of `samplePlant` with the `usda_zones` key absent. -/
def sampleInputNoZones : PlantInput := { samplePlant.toInput with usda_zones := none }

/-- C4 counterexample: with `usda_zones` absent from the dict, the write does
not succeed with an empty sequence — the `p['usda_zones']` access raises
`KeyError` and the save fails. -/
theorem c4_counterexample :
    (save_plant none sampleInputNoZones emptyDB).outcome =
      Except.error "KeyError: usda_zones" := rfl

/-- The dict handed to `save_plant` when the caller omits the two optional
sequence keys. -/
def inputNoSeqs (r : Plant) : PlantInput :=
  { r.toInput with images := none, grounding_sources := none }

/-- The same record with the two optional sequences explicitly empty. -/
def Plant.emptySeqs (r : Plant) : Plant :=
  { r with images := [], grounding_sources := [] }

/-- C4 (amended — counterexample `c4_counterexample`): absence is treated as
the empty sequence only for `images` and `grounding_sources` (read with
`p.get(k, [])`), for which the write succeeds exactly as if the empty
sequence had been passed; an absent `usda_zones` is accessed with
`p['usda_zones']` and makes the write fail with `KeyError`. -/
theorem c4_absent_images_grounding_empty (r : Plant) (db : DB)
    (hdb : db.tableExists = true) :
    save_plant none (inputNoSeqs r) db = save_plant none r.emptySeqs.toInput db ∧
    (save_plant none (inputNoSeqs r) db).outcome =
      Except.ok { db with rows := upsertRow (toStoredRow r.emptySeqs) db.rows } ∧
    (save_plant none { r.toInput with usda_zones := none } db).outcome =
      Except.error "KeyError: usda_zones" := by
  refine ⟨rfl, ?_, rfl⟩
  rw [show save_plant none (inputNoSeqs r) db =
    save_plant none r.emptySeqs.toInput db from rfl]
  rw [save_plant_ok _ db hdb]

/-- C4 witness: the amended claim at the concrete record `samplePlant` on
the fresh store. -/
theorem c4_witness :
    emptyDB.tableExists = true ∧
    (save_plant none (inputNoSeqs samplePlant) emptyDB =
      save_plant none samplePlant.emptySeqs.toInput emptyDB ∧
    (save_plant none (inputNoSeqs samplePlant) emptyDB).outcome =
      Except.ok { emptyDB with
        rows := upsertRow (toStoredRow samplePlant.emptySeqs) emptyDB.rows } ∧
    (save_plant none { samplePlant.toInput with usda_zones := none }
        emptyDB).outcome = Except.error "KeyError: usda_zones") :=
  ⟨rfl, c4_absent_images_grounding_empty samplePlant emptyDB rfl⟩

/-- C5: with no API key in the secrets store or the environment,
`perform_research` returns `None` at once with the offline warning, and no
call to the remote model is attempted. -/
theorem c5_research_no_key (env : ResearchEnv) (c s d : String)
    (h1 : env.secrets_api_key = none) (h2 : env.env_api_key = none) :
    perform_research env c s d =
      { result := none
        network_calls := 0
        signals := [.warning
          "API_KEY not found in Secrets or Environment. Research capabilities are offline."] } := by
  simp [perform_research, pyOr, pyTruthy, h1, h2]

/-- A research environment with no key configured anywhere. -/
def envNoKey : ResearchEnv :=
  { secrets_api_key := none, env_api_key := none
    remote := fun _ => Except.error "unreachable" }

/-- C5 witness: the concrete keyless environment. -/
theorem c5_witness :
    envNoKey.secrets_api_key = none ∧ envNoKey.env_api_key = none ∧
    perform_research envNoKey "Aloe" "Aloe vera" "succulent" =
      { result := none
        network_calls := 0
        signals := [.warning
          "API_KEY not found in Secrets or Environment. Research capabilities are offline."] } :=
  ⟨rfl, rfl, c5_research_no_key envNoKey "Aloe" "Aloe vera" "succulent" rfl rfl⟩

/-- C6: with a key configured, when the remote call raises or returns a body
that fails to parse as JSON, `perform_research` catches the failure, reports
it with a single `st.error` notification, returns `None`, and makes exactly
one remote call (no retry, no propagating exception). -/
theorem c6_research_failure (env : ResearchEnv) (c s d : String)
    (hkey : pyTruthy (pyOr env.secrets_api_key env.env_api_key) = true)
    (hfail : ∀ body, env.remote (buildPrompt c s d) = Except.ok body →
      parseJson body = none) :
    (perform_research env c s d).result = none ∧
    (perform_research env c s d).network_calls = 1 ∧
    ∃ m, (perform_research env c s d).signals = [.error m] := by
  cases hrem : env.remote (buildPrompt c s d) with
  | error e =>
      refine ⟨?_, ?_, "AI Core Failure: " ++ e, ?_⟩ <;>
        simp [perform_research, hkey, hrem]
  | ok body =>
      have hb := hfail body hrem
      refine ⟨?_, ?_, "AI Core Failure: JSONDecodeError", ?_⟩ <;>
        simp [perform_research, hkey, hrem, hb]

/-- A research environment whose remote model returns text that is not
JSON. -/
def envBadRemote : ResearchEnv :=
  { secrets_api_key := some "k", env_api_key := none
    remote := fun _ => Except.ok "oops" }

/-- C6 witness: the concrete environment whose remote call returns the
non-JSON body `oops`. -/
theorem c6_witness :
    pyTruthy (pyOr envBadRemote.secrets_api_key envBadRemote.env_api_key) = true ∧
    ((perform_research envBadRemote "Aloe" "Aloe vera" "succulent").result = none ∧
    (perform_research envBadRemote "Aloe" "Aloe vera" "succulent").network_calls = 1 ∧
    ∃ m, (perform_research envBadRemote "Aloe" "Aloe vera" "succulent").signals =
      [.error m]) :=
  ⟨rfl, c6_research_failure envBadRemote "Aloe" "Aloe vera" "succulent" rfl
    (fun body h => by cases h; decide)⟩

/-- C7 counterexample: when the storage layer fails mid-operation, the
connection `save_plant` (and `get_all_plants`) opened is never closed — no
`finally`/context manager guards the exit path. -/
theorem c7_counterexample :
    (save_plant (some "database is locked") samplePlant.toInput emptyDB).opened = 1 ∧
    (save_plant (some "database is locked") samplePlant.toInput emptyDB).closed = 0 ∧
    (get_all_plants (some "database is locked") emptyDB).opened = 1 ∧
    (get_all_plants (some "database is locked") emptyDB).closed = 0 :=
  ⟨rfl, rfl, rfl, rfl⟩

/-- C7 (amended — counterexample `c7_counterexample`): each of the three
store operations opens exactly one connection per call, and closes it
exactly when its storage interaction raises no exception — `init_db` unless
the create faults, `save_plant` exactly when the write succeeds,
`get_all_plants` when the SQL read succeeds (its close runs before the JSON
decoding, so a decode failure still closes). On a storage failure raised
mid-operation the connection is not released. -/
theorem c7_connection_per_operation (fault : Option String) (p : PlantInput)
    (db : DB) :
    (init_db fault db).opened = 1 ∧ (save_plant fault p db).opened = 1 ∧
    (get_all_plants fault db).opened = 1 ∧
    ((init_db fault db).closed = 1 ↔ fault = none) ∧
    ((save_plant fault p db).closed = 1 ↔
      (save_plant fault p db).outcome.isOk = true) ∧
    ((get_all_plants fault db).closed = 1 ↔
      fault = none ∧ db.tableExists = true) := by
  cases fault with
  | some e =>
      cases hb : buildRow p with
      | error e' => simp [init_db, save_plant, get_all_plants, hb, Except.isOk, Except.toBool]
      | ok row => simp [init_db, save_plant, get_all_plants, hb, Except.isOk, Except.toBool]
  | none =>
      by_cases ht : db.tableExists
      · cases hb : buildRow p with
        | error e' =>
            cases hd : decodeRows db.rows <;>
              simp [init_db, save_plant, get_all_plants, hb, ht, hd, Except.isOk, Except.toBool]
        | ok row =>
            cases hd : decodeRows db.rows <;>
              simp [init_db, save_plant, get_all_plants, hb, ht, hd, Except.isOk, Except.toBool]
      · cases hb : buildRow p with
        | error e' => simp [init_db, save_plant, get_all_plants, hb, ht, Except.isOk, Except.toBool]
        | ok row => simp [init_db, save_plant, get_all_plants, hb, ht, Except.isOk, Except.toBool]

/-- C8: `init_db` is idempotent — iterating its state transition any
positive number of times equals applying it once, it leaves the table in
place, and a repeat call on a store that already has the table still
succeeds (no error on repeat calls). -/
theorem c8_ensure_schema_idempotent (db : DB) (n : Nat) (hn : 1 ≤ n) :
    initState^[n] db = initState db ∧
    (init_db none db).outcome = Except.ok (initState db) ∧
    (init_db none (initState db)).outcome = Except.ok (initState db) ∧
    (initState db).tableExists = true := by
  refine ⟨?_, rfl, rfl, rfl⟩
  obtain ⟨m, rfl⟩ : ∃ m, n = m + 1 := ⟨n - 1, by omega⟩
  clear hn
  induction m with
  | zero => simp
  | succ k ih =>
      rw [Function.iterate_succ_apply', ih]
      rfl

/-- C8 witness: two calls on a store without the table. -/
theorem c8_witness :
    1 ≤ 2 ∧
    (initState^[2] { tableExists := false, rows := [] } =
      initState { tableExists := false, rows := [] } ∧
    (init_db none { tableExists := false, rows := [] }).outcome =
      Except.ok (initState { tableExists := false, rows := [] }) ∧
    (init_db none (initState { tableExists := false, rows := [] })).outcome =
      Except.ok (initState { tableExists := false, rows := [] }) ∧
    (initState { tableExists := false, rows := [] }).tableExists = true) :=
  ⟨by omega, c8_ensure_schema_idempotent { tableExists := false, rows := [] } 2
    (by omega)⟩

/-- C9: one stored row whose `usda_zones` text is not valid JSON makes
`get_all_plants` return the empty result for the whole store — the per-row
decode failure is caught by the whole-read handler, discarding every record
and emitting the read-error notification. -/
theorem c9_bad_row_discards_all (db : DB) (hdb : db.tableExists = true)
    (hbad : ∃ s ∈ db.rows, parseJson s.usda_zones = none) :
    (get_all_plants none db).rows = [] ∧
    (get_all_plants none db).signals = [.error "Vault Read Error: JSONDecodeError"] := by
  have hd := decodeRows_none db.rows hbad
  constructor <;> simp [get_all_plants, hdb, hd]

/-- A stored row whose `usda_zones` cell holds text that is not JSON. -/
def badStoredRow : StoredRow :=
  { toStoredRow samplePlant with
      id := "bad-row"
      usda_zones := "not json" }

/-- A store holding one well-formed row and one row with corrupt
`usda_zones` text. -/
def dbWithBadRow : DB :=
  { tableExists := true, rows := [toStoredRow samplePlant, badStoredRow] }

/-- C9 witness: the concrete store with one good and one corrupt row reads
back as empty. -/
theorem c9_witness :
    dbWithBadRow.tableExists = true ∧
    (∃ s ∈ dbWithBadRow.rows, parseJson s.usda_zones = none) ∧
    ((get_all_plants none dbWithBadRow).rows = [] ∧
    (get_all_plants none dbWithBadRow).signals =
      [.error "Vault Read Error: JSONDecodeError"]) :=
  ⟨rfl, ⟨badStoredRow, by decide, by decide⟩,
    c9_bad_row_discards_all dbWithBadRow rfl ⟨badStoredRow, by decide, by decide⟩⟩

/-- C10: every record `get_all_plants` returns comes from a stored row with
its `usda_zones` cell deserialized, while its `images` and
`grounding_sources` cells are exactly the stored JSON text strings, never
deserialized. -/
theorem c10_images_stay_serialized (fault : Option String) (db : DB)
    (row : ReadRow) (hmem : row ∈ (get_all_plants fault db).rows) :
    ∃ s, s ∈ db.rows ∧ row.id = s.id ∧ row.images = Json.str s.images ∧
      row.grounding_sources = Json.str s.grounding_sources ∧
      parseJson s.usda_zones = some row.usda_zones := by
  cases fault with
  | some e => simp [get_all_plants] at hmem
  | none =>
      by_cases ht : db.tableExists
      · simp only [get_all_plants, ht, if_true] at hmem
        cases hd : decodeRows db.rows with
        | none => rw [hd] at hmem; simp at hmem
        | some rs =>
            rw [hd] at hmem
            simp only at hmem
            obtain ⟨s, hsmem, j, hj, heq⟩ := decodeRows_mem db.rows hd row hmem
            subst heq
            exact ⟨s, hsmem, rfl, rfl, rfl, hj⟩
      · simp [get_all_plants, ht] at hmem

/-- C10 witness: the single row read back from the concrete store, with its
stored counterpart. -/
theorem c10_witness :
    codeReadRow samplePlant ∈ (get_all_plants none dbSample).rows ∧
    (∃ s, s ∈ dbSample.rows ∧ (codeReadRow samplePlant).id = s.id ∧
      (codeReadRow samplePlant).images = Json.str s.images ∧
      (codeReadRow samplePlant).grounding_sources = Json.str s.grounding_sources ∧
      parseJson s.usda_zones = some (codeReadRow samplePlant).usda_zones) :=
  ⟨by decide, c10_images_stay_serialized none dbSample (codeReadRow samplePlant)
    (by decide)⟩

end ExoticSalad
